import Mathlib

/-!
Verification development for the AI customer health monitor dashboard
(`src/app.py`).  The program's two components are embedded shallowly:

* the Analysis Client (`analyze_customer_with_ai`): prompt rendering,
  the single remote request, code-fence stripping of the reply, and the
  JSON decode of the stripped text;
* the batch loop and summary statistics of `main`, together with the
  slider bounds and the single-record name lookup.

Python strings are modelled as `List Char`; machine behaviour of the
standard library (`str.replace`, `str.strip`, `json.loads`, pandas
column access) is modelled by executable Lean functions documented at
their definitions.  The remote endpoint is a parameter (a function from
requests to a reply or an error), since the model's answers are not part
of the program.
-/

/-- Whitespace characters removed by Python's `str.strip()`:
space, tab, newline, carriage return, vertical tab, form feed. -/
def isPySpace (c : Char) : Bool :=
  c == ' ' || c == '\t' || c == '\n' || c == '\r' || c.toNat == 11 || c.toNat == 12

/-- Left part of Python's `str.strip()`: drop leading whitespace. -/
def lstrip (s : List Char) : List Char := s.dropWhile isPySpace

/-- Right part of Python's `str.strip()`: drop trailing whitespace. -/
def rstrip (s : List Char) : List Char := (s.reverse.dropWhile isPySpace).reverse

/-- Python's `str.strip()`: drop leading and trailing whitespace. -/
def pyStrip (s : List Char) : List Char := rstrip (lstrip s)

/-- Fuel-driven worker for `pyReplace`.  One unit of fuel is spent per
character position scanned, so fuel `s.length` always suffices; the
fuel-exhausted arm is never reached from `pyReplace`. -/
def pyReplaceGo : Nat → List Char → List Char → List Char
  | _, [], _ => []
  | 0, s, _ => s
  | fuel + 1, c :: s, pat =>
    if pat.isPrefixOf (c :: s) ∧ pat ≠ [] then
      pyReplaceGo fuel (List.drop pat.length (c :: s)) pat
    else
      c :: pyReplaceGo fuel s pat

/-- Python's `s.replace(pat, '')` for a non-empty pattern `pat`:
scan left to right, removing each non-overlapping occurrence of `pat`
and continuing the scan after the removed segment (the replacement in
`src/app.py` line 61 is always the empty string). -/
def pyReplace (s pat : List Char) : List Char := pyReplaceGo s.length s pat

/-- Opening fence marker removed first at `src/app.py` line 61. -/
def fenceJson : List Char := "```json".toList

/-- Bare fence marker removed second at `src/app.py` line 61. -/
def fence : List Char := "```".toList

/-- Code-fence stripping of the raw reply text, `src/app.py` line 61:
`response_text.replace('```json', '').replace('```', '').strip()`. -/
def stripReply (s : List Char) : List Char :=
  pyStrip (pyReplace (pyReplace s fenceJson) fence)

/-- Backtick character (code point 96). -/
def tick : Char := Char.ofNat 96

/-- JSON values as produced by Python's `json.loads`. -/
inductive Json where
  | null : Json
  | bool (b : Bool) : Json
  | num (n : Int) : Json
  | str (s : List Char) : Json
  | arr (elems : List Json) : Json
  | obj (fields : List (List Char × Json)) : Json

/-- Python truthiness of a decoded JSON value, as tested by
`if ai_result:` at `src/app.py` lines 130 and 200. -/
def jsonTruthy : Json → Bool
  | .null => false
  | .bool b => b
  | .num n => n != 0
  | .str s => !s.isEmpty
  | .arr xs => !xs.isEmpty
  | .obj kvs => !kvs.isEmpty

/-- Dictionary access `d[key]` on a decoded value; `none` models the
KeyError (missing key) or TypeError (non-dict value) that Python raises,
which no handler in `src/app.py` catches.  `json.loads` keeps the last
occurrence of a duplicated key, hence the reversed search. -/
def getKey : Json → List Char → Option Json
  | .obj kvs, k => (kvs.reverse.find? (fun kv => kv.1 == k)).map (fun kv => kv.2)
  | _, _ => none

/-- Whitespace accepted between JSON tokens by `json.loads`. -/
def isJsonWs (c : Char) : Bool := c == ' ' || c == '\t' || c == '\n' || c == '\r'

/-- Skip JSON token whitespace. -/
def skipWs (s : List Char) : List Char := s.dropWhile isJsonWs

/-- String body parser: after an opening quote, read up to the closing
quote.  Escape sequences are not modelled; no reply in this development
contains them. -/
def parseStr : List Char → Option (List Char × List Char)
  | [] => none
  | c :: rest =>
    if c = '"' then some ([], rest)
    else match parseStr rest with
      | some (s, r) => some (c :: s, r)
      | none => none

/-- Digit run parser for integer literals. -/
def parseDigits (s : List Char) : Option (Nat × List Char) :=
  let ds := s.takeWhile Char.isDigit
  let rest := s.dropWhile Char.isDigit
  if ds.isEmpty then none
  else some (ds.foldl (fun acc c => 10 * acc + (c.toNat - 48)) 0, rest)

/-- Bundle of the mutually recursive parsing functions at one fuel
level: `val` parses a value, `arr`/`arrTail` parse array elements right
after `[` and right after an element, `obj`/`objTail` likewise for
objects. -/
structure JsonParsers where
  val : List Char → Option (Json × List Char)
  arr : List Char → Option (List Json × List Char)
  arrTail : List Char → Option (List Json × List Char)
  obj : List Char → Option (List (List Char × Json) × List Char)
  objTail : List Char → Option (List (List Char × Json) × List Char)

/-- Fuel-indexed recursive parser modelling Python's `json.loads` on the
fragment this program exchanges: `null`, booleans, signed integer
literals, strings without escapes, arrays and objects. -/
def jsonParsers : Nat → JsonParsers
  | 0 => ⟨fun _ => none, fun _ => none, fun _ => none, fun _ => none, fun _ => none⟩
  | f + 1 =>
    let p := jsonParsers f
    ⟨fun s =>
      match skipWs s with
      | [] => none
      | c :: rest =>
        if c = 'n' then
          if "ull".toList.isPrefixOf rest then some (.null, rest.drop 3) else none
        else if c = 't' then
          if "rue".toList.isPrefixOf rest then some (.bool true, rest.drop 3) else none
        else if c = 'f' then
          if "alse".toList.isPrefixOf rest then some (.bool false, rest.drop 4) else none
        else if c = '"' then
          match parseStr rest with
          | some (cs, r) => some (.str cs, r)
          | none => none
        else if c = '-' then
          match parseDigits rest with
          | some (n, r) => some (.num (-(n : Int)), r)
          | none => none
        else if c.isDigit then
          match parseDigits (c :: rest) with
          | some (n, r) => some (.num (n : Int), r)
          | none => none
        else if c = '[' then
          match p.arr rest with
          | some (xs, r) => some (.arr xs, r)
          | none => none
        else if c = '\x7b' then
          match p.obj rest with
          | some (kvs, r) => some (.obj kvs, r)
          | none => none
        else none,
    fun s =>
      match skipWs s with
      | ']' :: r => some ([], r)
      | s' =>
        match p.val s' with
        | some (v, r) =>
          match p.arrTail r with
          | some (vs, r2) => some (v :: vs, r2)
          | none => none
        | none => none,
    fun s =>
      match skipWs s with
      | ']' :: r => some ([], r)
      | ',' :: r =>
        match p.val r with
        | some (v, r1) =>
          match p.arrTail r1 with
          | some (vs, r2) => some (v :: vs, r2)
          | none => none
        | none => none
      | _ => none,
    fun s =>
      match skipWs s with
      | '\x7d' :: r => some ([], r)
      | '"' :: r =>
        match parseStr r with
        | some (k, r1) =>
          match skipWs r1 with
          | ':' :: r2 =>
            match p.val r2 with
            | some (v, r3) =>
              match p.objTail r3 with
              | some (kvs, r4) => some ((k, v) :: kvs, r4)
              | none => none
            | none => none
          | _ => none
        | none => none
      | _ => none,
    fun s =>
      match skipWs s with
      | '\x7d' :: r => some ([], r)
      | ',' :: r =>
        match skipWs r with
        | '"' :: r0 =>
          match parseStr r0 with
          | some (k, r1) =>
            match skipWs r1 with
            | ':' :: r2 =>
              match p.val r2 with
              | some (v, r3) =>
                match p.objTail r3 with
                | some (kvs, r4) => some ((k, v) :: kvs, r4)
                | none => none
              | none => none
            | _ => none
          | none => none
        | _ => none
      | _ => none⟩

/-- Python's `json.loads` (`src/app.py` line 62): parse one value and
require nothing but whitespace after it; `none` models
`json.JSONDecodeError`, which the surrounding `except` catches. -/
def jsonLoads (s : List Char) : Option Json :=
  match (jsonParsers (2 * s.length + 2)).val s with
  | some (v, rest) => if (skipWs rest).isEmpty then some v else none
  | none => none

/-- Decimal rendering of a number, as Python's `str(int)` inside an
f-string placeholder. -/
def fmtNat (n : Nat) : List Char := Nat.toDigits 10 n

/-- Worker for thousands grouping: input is the reversed digit list, `k`
counts digits emitted in the current group of three. -/
def groupRev : List Char → Nat → List Char
  | [], _ => []
  | c :: rest, k =>
    if k == 3 then
      match rest with
      | [] => [c]
      | _ :: _ => c :: ',' :: groupRev rest 1
    else c :: groupRev rest (k + 1)

/-- Decimal rendering with thousands separators, Python's `{:,}`. -/
def fmtNatGrouped (n : Nat) : List Char := (groupRev (fmtNat n).reverse 1).reverse

/-- Zero-padded two-digit rendering of a value below 100. -/
def pad2 (n : Nat) : List Char := if n < 10 then '0' :: fmtNat n else fmtNat n

/-- Python's `{:,.2f}` currency formatting (`src/app.py` line 29), on an
amount carried in cents: thousands-grouped integer part, a dot, and two
decimal places.  The source holds the revenue as a float; this
development models it exactly in cents. -/
def fmtCurrency (cents : Nat) : List Char :=
  fmtNatGrouped (cents / 100) ++ '.' :: pad2 (cents % 100)

/-- One customer row of `customers_data.csv`, with the eight columns the
program reads.  Numeric columns are naturals; the revenue is carried in
cents (see `fmtCurrency`). -/
structure Customer where
  name : List Char
  days_since_last_activity : Nat
  open_tickets : Nat
  total_tickets : Nat
  total_revenue_cents : Nat
  opportunities_won : Nat
  opportunities_lost : Nat
  email_engagement : List Char
  deriving DecidableEq

/-- Static template text before the interpolated name
(`src/app.py` lines 21-25). -/
def promptP0 : List Char := "\n    Analiza este cliente B2B y proporciona un análisis detallado como Customer Success Manager experto.\n    \n    Datos del cliente:\n    - Nombre: ".toList

/-- Template text between the name and the days field (line 26). -/
def promptP1 : List Char := "\n    - Días desde última actividad: ".toList

/-- Template text before the open-tickets field (line 27). -/
def promptP2 : List Char := "\n    - Tickets abiertos actualmente: ".toList

/-- Template text before the total-tickets field (line 28). -/
def promptP3 : List Char := "\n    - Total tickets históricos: ".toList

/-- Template text before the revenue field, ending in the currency sign
(line 29). -/
def promptP4 : List Char := "\n    - Revenue total: $".toList

/-- Template text before the opportunities-won field (line 30). -/
def promptP5 : List Char := "\n    - Oportunidades ganadas: ".toList

/-- Template text before the opportunities-lost field (line 31). -/
def promptP6 : List Char := "\n    - Oportunidades perdidas: ".toList

/-- Template text before the engagement field (line 32). -/
def promptP7 : List Char := "\n    - Engagement de email: ".toList

/-- Static template tail after the engagement field
(`src/app.py` lines 33-51). -/
def promptP8 : List Char := "\n    \n    Proporciona:\n    1. Health Score (0-100) - siendo 100 salud perfecta\n    2. Churn Risk (low/medium/high)\n    3. Exactamente 3 acciones recomendadas específicas y accionables\n    4. Un breve análisis (2-3 oraciones) del estado actual del cliente\n    \n    IMPORTANTE: Responde SOLO con JSON válido en este formato exacto:\n    \x7b\n        \"health_score\": 75,\n        \"churn_risk\": \"medium\",\n        \"analysis\": \"Breve análisis aquí del estado del cliente\",\n        \"recommendations\": [\n            \"Primera acción específica y accionable\",\n            \"Segunda acción específica y accionable\",\n            \"Tercera acción específica y accionable\"\n        ]\n    \x7d\n    ".toList

/-- The rendered prompt of `analyze_customer_with_ai`
(`src/app.py` lines 21-51): the fixed Spanish template with the eight
record fields interpolated once each. -/
def buildPrompt (c : Customer) : List Char :=
  promptP0 ++ c.name
    ++ promptP1 ++ fmtNat c.days_since_last_activity
    ++ promptP2 ++ fmtNat c.open_tickets
    ++ promptP3 ++ fmtNat c.total_tickets
    ++ promptP4 ++ fmtCurrency c.total_revenue_cents
    ++ promptP5 ++ fmtNat c.opportunities_won
    ++ promptP6 ++ fmtNat c.opportunities_lost
    ++ promptP7 ++ c.email_engagement
    ++ promptP8

/-- Message role in the request payload. -/
inductive Role where
  | user : Role
  deriving DecidableEq

/-- Payload of one `client.messages.create` call
(`src/app.py` lines 54-58). -/
structure Request where
  model : List Char
  max_tokens : Nat
  messages : List (Role × List Char)
  deriving DecidableEq

/-- Fixed model identifier passed at `src/app.py` line 55. -/
def modelId : List Char := "claude-sonnet-4-20250514".toList

/-- The single request `analyze_customer_with_ai` issues for a record. -/
def mkRequest (c : Customer) : Request :=
  ⟨modelId, 1000, [(Role.user, buildPrompt c)]⟩

/-- Failure of the remote call (network or API error raised by
`client.messages.create`), caught by the `except` of line 66. -/
inductive RemoteErr where
  | apiError : RemoteErr
  deriving DecidableEq

/-- Exceptions that escape the program's handlers.
`missingCredential` is modelled from the anthropic SDK's documented
behaviour: constructing `anthropic.Anthropic` without a resolvable API
key raises at the constructor — line 19, which sits before the `try` of
lines 53-68, so nothing in `analyze_customer_with_ai` catches it.
`keyError` is a dict or DataFrame access failure in `main`, outside any
handler.  `indexError` is an out-of-range `df.iloc[idx]`. -/
inductive UncaughtExc where
  | missingCredential : UncaughtExc
  | keyError : UncaughtExc
  | indexError : UncaughtExc
  deriving DecidableEq

/-- The Analysis Client, `analyze_customer_with_ai`
(`src/app.py` lines 18-68).  `cred` is `os.getenv('ANTHROPIC_API_KEY')`;
`remote` is the external endpoint, a parameter because its answers are
not part of the program.  The result pairs what the call produces
(normal return, `None` after a caught error, or an uncaught exception)
with the list of requests issued. -/
def analyzeRun (cred : Option (List Char)) (c : Customer)
    (remote : Request → Except RemoteErr (List Char)) :
    Except UncaughtExc (Option Json) × List Request :=
  match cred with
  | none => (.error .missingCredential, [])
  | some _ =>
    match remote (mkRequest c) with
    | .error _ => (.ok none, [mkRequest c])
    | .ok text =>
      match jsonLoads (stripReply text) with
      | none => (.ok none, [mkRequest c])
      | some v => (.ok (some v), [mkRequest c])

/-- Result of `analyze_customer_with_ai` alone (first component of
`analyzeRun`). -/
def analyzeResult (cred : Option (List Char)) (c : Customer)
    (remote : Request → Except RemoteErr (List Char)) :
    Except UncaughtExc (Option Json) :=
  (analyzeRun cred c remote).1

/-- The single-record rendering path (`src/app.py` lines 130-175): when
the analysis produced a truthy value, the UI reads the keys
`health_score`, `churn_risk`, `analysis` and `recommendations`; a
missing key raises outside every handler. -/
def renderSingle (res : Except UncaughtExc (Option Json)) :
    Except UncaughtExc (Option (Json × Json × Json × Json)) :=
  match res with
  | .error e => .error e
  | .ok none => .ok none
  | .ok (some v) =>
    if jsonTruthy v then
      match getKey v "health_score".toList, getKey v "churn_risk".toList,
            getKey v "analysis".toList, getKey v "recommendations".toList with
      | some hs, some cr, some an, some recs => .ok (some (hs, cr, an, recs))
      | _, _, _, _ => .error .keyError
    else .ok none

/-- One row of the batch result table (`src/app.py` lines 201-208):
the customer name, the two values read from the AI result, and three
derived columns copied from the record. -/
structure ResultRow where
  cliente : List Char
  healthScore : Json
  riesgo : Json
  revenue_cents : Nat
  dias : Nat
  ticketsAbiertos : Nat

/-- Build the table row appended at `src/app.py` lines 201-208; `none`
models the KeyError raised when the decoded reply lacks a key the row
reads. -/
def buildRow (c : Customer) (v : Json) : Option ResultRow :=
  match getKey v "health_score".toList, getKey v "churn_risk".toList with
  | some hs, some cr =>
    some ⟨c.name, hs, cr, c.total_revenue_cents,
          c.days_since_last_activity, c.open_tickets⟩
  | _, _ => none

/-- One iteration of the batch loop (`src/app.py` lines 194-210):
analyze the record, and when the result is truthy build its row. -/
def processCustomer (cred : Option (List Char))
    (remote : Request → Except RemoteErr (List Char)) (c : Customer) :
    Except UncaughtExc (Option ResultRow) × List Request :=
  match analyzeRun cred c remote with
  | (.error e, reqs) => (.error e, reqs)
  | (.ok none, reqs) => (.ok none, reqs)
  | (.ok (some v), reqs) =>
    if jsonTruthy v then
      match buildRow c v with
      | some row => (.ok (some row), reqs)
      | none => (.error .keyError, reqs)
    else (.ok none, reqs)

/-- The batch loop over a list of records, collecting the rows of the
successful ones in order and the requests issued; an uncaught exception
aborts the loop. -/
def batchGo (cred : Option (List Char))
    (remote : Request → Except RemoteErr (List Char)) :
    List Customer → Except UncaughtExc (List ResultRow) × List Request
  | [] => (.ok [], [])
  | c :: cs =>
    match processCustomer cred remote c with
    | (.error e, reqs) => (.error e, reqs)
    | (.ok r?, reqs) =>
      match batchGo cred remote cs with
      | (.error e, reqs') => (.error e, reqs ++ reqs')
      | (.ok rows, reqs') =>
        (.ok (match r? with | some row => row :: rows | none => rows), reqs ++ reqs')

/-- The batch run of `src/app.py` lines 192-210: iterate over the first
`n` records (`df.iloc[idx]` for `idx` in `range(n)`; out of range would
raise IndexError). -/
def runBatch (n : Nat) (df : List Customer) (cred : Option (List Char))
    (remote : Request → Except RemoteErr (List Char)) :
    Except UncaughtExc (List ResultRow) × List Request :=
  if n ≤ df.length then batchGo cred remote (df.take n)
  else (.error .indexError, [])

/-- Failures of the summary-statistics block. -/
inductive PdErr where
  | columnKeyError : PdErr
  | nonNumeric : PdErr
  deriving DecidableEq

/-- Numeric view of a stored health score, as pandas would need for the
column mean. -/
def rowScoreInt (r : ResultRow) : Option Int :=
  match r.healthScore with
  | .num n => some n
  | _ => none

/-- Elementwise comparison `results_df['Riesgo'] == 'high'`
(`src/app.py` lines 224 and 232): true exactly for the string `high`. -/
def isHighRisk (v : Json) : Bool :=
  match v with
  | .str s => s == "high".toList
  | _ => false

/-- The four global metrics of `src/app.py` lines 216-233. -/
structure Summary where
  avgHealth : ℚ
  highRiskCount : Nat
  highRiskPct : ℚ
  totalRevenue_cents : Nat
  atRiskRevenue_cents : Nat
  deriving DecidableEq

/-- Summary statistics over the batch table (`src/app.py` lines
214-233).  `pd.DataFrame([])` built from an empty result list has no
columns at all, so `results_df['Health Score']` raises a KeyError —
`columnKeyError` models that; with rows present the mean divides by the
row count and the high-risk percentage divides by `len(results_df)`,
both represented as exact rationals.
`nonNumeric` models a mean over non-numeric cells (pandas raises). -/
def computeSummary (rows : List ResultRow) : Except PdErr Summary :=
  if rows.isEmpty then .error .columnKeyError
  else
    match rows.mapM rowScoreInt with
    | none => .error .nonNumeric
    | some scores =>
      let n := rows.length
      let highRows := rows.filter (fun r => isHighRisk r.riesgo)
      .ok ⟨mkRat scores.sum n,
           highRows.length,
           mkRat (highRows.length * 100) n,
           (rows.map ResultRow.revenue_cents).sum,
           (highRows.map ResultRow.revenue_cents).sum⟩

/-- The batch-size slider of `src/app.py` lines 180-186:
`min_value=3`, `max_value=len(df)`, `value=min(5, len(df))`. -/
structure SliderSpec where
  min_value : Nat
  max_value : Nat
  value : Nat
  deriving DecidableEq

/-- The concrete slider the dashboard builds for a dataset. -/
def batchSlider (df : List Customer) : SliderSpec :=
  ⟨3, df.length, min 5 df.length⟩

/-- Single-record lookup of `src/app.py` line 93:
`df[df['name'] == selected_customer_name].iloc[0]` — the first row (in
file order) whose name matches; `none` models the IndexError on an
absent name. -/
def lookupByName (df : List Customer) (nm : List Char) : Option Customer :=
  (df.filter (fun c => c.name == nm)).head?

/-- Number of positions at which `pat` occurs in `s` (overlapping
occurrences counted). -/
def countOccs (pat : List Char) : List Char → Nat
  | [] => if pat.isEmpty then 1 else 0
  | c :: rest => (if pat.isPrefixOf (c :: rest) then 1 else 0) + countOccs pat rest

/-- Shape demanded by the spec's AnalysisResult contract — health score
within 0-100, churn risk one of the three literals, an analysis string,
exactly three recommendations.  Defined from the spec's words for
comparison; the code enforces none of it. -/
def isContractShape (v : Json) : Bool :=
  match getKey v "health_score".toList, getKey v "churn_risk".toList,
        getKey v "analysis".toList, getKey v "recommendations".toList with
  | some (.num hs), some (.str cr), some (.str _), some (.arr recs) =>
    (decide (0 ≤ hs) && decide (hs ≤ 100))
      && (cr == "low".toList || cr == "medium".toList || cr == "high".toList)
      && recs.length == 3
  | _, _, _, _ => false

/-- Per-record well-formedness of an analysis outcome, as the batch loop
needs it: a returned value must be truthy and carry the keys the row
build reads.  Failed analyses (`None`) satisfy it vacuously. -/
def wfResultB (res : Except UncaughtExc (Option Json)) (c : Customer) : Bool :=
  match res with
  | .ok (some v) => jsonTruthy v && (buildRow c v).isSome
  | .ok none => true
  | .error _ => true

/-- Concrete record used by witnesses and counterexamples. -/
def sampleA : Customer :=
  ⟨"Acme Corp".toList, 3, 2, 7, 1234550, 4, 1, "high".toList⟩

/-- Second concrete record. -/
def sampleB : Customer :=
  ⟨"Beta SA".toList, 10, 0, 5, 500000, 2, 2, "low".toList⟩

/-- Record sharing `sampleB`'s name but no other field, for the
duplicate-name lookup witness. -/
def sampleB2 : Customer :=
  ⟨"Beta SA".toList, 99, 9, 9, 1, 0, 0, "very_low".toList⟩

/-- Third concrete record. -/
def sampleC : Customer :=
  ⟨"Gamma Inc".toList, 30, 1, 3, 250075, 1, 5, "medium".toList⟩

/-- A well-shaped remote reply with health score 82 and low risk. -/
def goodReply82 : List Char :=
  "\x7b\"health_score\": 82, \"churn_risk\": \"low\", \"analysis\": \"Stable.\", \"recommendations\": [\"A\", \"B\", \"C\"]\x7d".toList

/-- A well-shaped remote reply with health score 64 and high risk. -/
def goodReply64 : List Char :=
  "\x7b\"health_score\": 64, \"churn_risk\": \"high\", \"analysis\": \"Fragile.\", \"recommendations\": [\"D\", \"E\", \"F\"]\x7d".toList

/-- A reply that decodes as JSON but carries none of the expected keys. -/
def badMissingReply : List Char := "\x7b\"foo\": 1\x7d".toList

/-- The decoded value of `badMissingReply`. -/
def badMissingVal : Json := .obj [("foo".toList, .num 1)]

/-- A reply that decodes as JSON with every expected key present but
each value out of contract: score 999, unknown risk literal, a single
recommendation. -/
def badShapeReply : List Char :=
  "\x7b\"health_score\": 999, \"churn_risk\": \"banana\", \"analysis\": \"x\", \"recommendations\": [\"only one\"]\x7d".toList

/-- The decoded value of `badShapeReply`. -/
def badShapeVal : Json :=
  .obj [("health_score".toList, .num 999), ("churn_risk".toList, .str "banana".toList),
        ("analysis".toList, .str "x".toList),
        ("recommendations".toList, .arr [.str "only one".toList])]

/-- Remote endpoint of end-to-end scenario 3: the call for `sampleB`
fails, the calls for `sampleA` and `sampleC` answer well-shaped
replies. -/
def remoteScenario : Request → Except RemoteErr (List Char) := fun r =>
  if r = mkRequest sampleB then .error .apiError
  else if r = mkRequest sampleA then .ok goodReply82
  else .ok goodReply64

/-- Decidable equality of fallible results, for concrete evaluation. -/
instance {ε α : Type} [DecidableEq ε] [DecidableEq α] : DecidableEq (Except ε α) := fun a b =>
  match a, b with
  | .error e, .error f =>
    if h : e = f then .isTrue (h ▸ rfl) else .isFalse (fun hc => h (Except.error.inj hc))
  | .ok x, .ok y =>
    if h : x = y then .isTrue (h ▸ rfl) else .isFalse (fun hc => h (Except.ok.inj hc))
  | .error _, .ok _ => .isFalse Except.noConfusion
  | .ok _, .error _ => .isFalse Except.noConfusion

/-- Spending more fuel than the input's length changes nothing. -/
theorem pyReplaceGo_fuel : ∀ (f : Nat) (s pat : List Char), s.length ≤ f →
    pyReplaceGo f s pat = pyReplaceGo s.length s pat := by
  intro f
  induction f using Nat.strong_induction_on with
  | _ f ih =>
    intro s pat hs
    match f, s with
    | 0, [] => rfl
    | f' + 1, [] => rfl
    | 0, c :: s' => simp at hs
    | f' + 1, c :: s' =>
      have hs' : s'.length ≤ f' := by simpa using hs
      show pyReplaceGo (f' + 1) (c :: s') pat = pyReplaceGo (s'.length + 1) (c :: s') pat
      by_cases h : pat.isPrefixOf (c :: s') ∧ pat ≠ []
      · have hplen : 1 ≤ pat.length := by
          cases pat with
          | nil => exact absurd rfl h.2
          | cons a t => simp
        have hdrop : (List.drop pat.length (c :: s')).length ≤ s'.length := by
          simp only [List.length_drop, List.length_cons]; omega
        simp only [pyReplaceGo, if_pos h]
        rw [ih f' (by omega) _ pat (le_trans hdrop hs'),
            ih s'.length (by omega) _ pat hdrop]
      · simp only [pyReplaceGo, if_neg h]
        rw [ih f' (by omega) s' pat hs', ih s'.length (by omega) s' pat le_rfl]

/-- Unfolding `pyReplace` when the pattern matches at the current position. -/
theorem pyReplace_pos {c : Char} {s pat : List Char}
    (h : pat.isPrefixOf (c :: s)) (hne : pat ≠ []) :
    pyReplace (c :: s) pat = pyReplace (List.drop pat.length (c :: s)) pat := by
  have hplen : 1 ≤ pat.length := by
    cases pat with
    | nil => exact absurd rfl hne
    | cons a t => simp
  have hdrop : (List.drop pat.length (c :: s)).length ≤ s.length := by
    simp only [List.length_drop, List.length_cons]; omega
  show pyReplaceGo (s.length + 1) (c :: s) pat = _
  simp only [pyReplaceGo, if_pos (And.intro h hne)]
  rw [pyReplaceGo_fuel s.length _ pat hdrop]
  rfl

/-- Unfolding `pyReplace` when the pattern does not match at the current
position (or is empty). -/
theorem pyReplace_neg {c : Char} {s pat : List Char}
    (h : ¬ (pat.isPrefixOf (c :: s) ∧ pat ≠ [])) :
    pyReplace (c :: s) pat = c :: pyReplace s pat := by
  show pyReplaceGo (s.length + 1) (c :: s) pat = _
  simp only [pyReplaceGo, if_neg h]
  rfl

/-- A string containing no occurrence of the pattern is left unchanged. -/
theorem pyReplace_of_no_occ {s pat : List Char} (h : ¬ pat <:+: s) :
    pyReplace s pat = s := by
  induction s with
  | nil => rfl
  | cons c s' ih =>
    have hnp : ¬ (pat.isPrefixOf (c :: s') ∧ pat ≠ []) := by
      rintro ⟨hp, -⟩
      exact h (List.IsPrefix.isInfix (List.isPrefixOf_iff_prefix.mp hp))
    rw [pyReplace_neg hnp, ih (fun hi => h (List.infix_cons_iff.mpr (Or.inr hi)))]

/-- Removing a leading copy of the pattern. -/
theorem pyReplace_cancel_left {pat : List Char} (X : List Char) (h : pat ≠ []) :
    pyReplace (pat ++ X) pat = pyReplace X pat := by
  cases pat with
  | nil => exact absurd rfl h
  | cons p ps =>
    have hp : (p :: ps).isPrefixOf ((p :: ps) ++ X) :=
      List.isPrefixOf_iff_prefix.mpr (List.prefix_append _ _)
    rw [List.cons_append, pyReplace_pos (List.cons_append p ps X ▸ hp) h]
    have : List.drop (p :: ps).length (p :: (ps ++ X)) = X := by
      rw [← List.cons_append]
      exact List.drop_left _ _
    rw [this]

/-- If the scrubbed string starts with a backtick, so did the input. -/
theorem head_tick_of_pyReplace_fence {s : List Char}
    (h : (pyReplace s fence).head? = some tick) : s.head? = some tick := by
  cases s with
  | nil => simp [pyReplace, pyReplaceGo] at h
  | cons c s' =>
    by_cases hp : fence.isPrefixOf (c :: s') ∧ fence ≠ []
    · have hf : fence <+: c :: s' := List.isPrefixOf_iff_prefix.mp hp.1
      have hft : fence = tick :: tick :: tick :: [] := by decide
      rw [hft] at hf
      obtain ⟨hc, -⟩ := List.cons_prefix_cons.mp hf
      simp [← hc]
    · rw [pyReplace_neg hp] at h
      exact h

/-- If two backticks are a prefix of the scrubbed string, they already
were a prefix of the input. -/
theorem two_ticks_prefix_of_pyReplace {s : List Char}
    (h : [tick, tick] <+: pyReplace s fence) : [tick, tick] <+: s := by
  cases s with
  | nil => simp [pyReplace, pyReplaceGo] at h
  | cons c s' =>
    by_cases hp : fence.isPrefixOf (c :: s') ∧ fence ≠ []
    · have hf : fence <+: c :: s' := List.isPrefixOf_iff_prefix.mp hp.1
      have hft : fence = tick :: tick :: tick :: [] := by decide
      rw [hft] at hf
      obtain ⟨hc, hf2⟩ := List.cons_prefix_cons.mp hf
      obtain ⟨u, hu⟩ := hf2
      exact ⟨tick :: u, by simp only [← hc, ← hu]; rfl⟩
    · rw [pyReplace_neg hp] at h
      obtain ⟨hc, h1⟩ := List.cons_prefix_cons.mp h
      have hhead : (pyReplace s' fence).head? = some tick := by
        cases hx : pyReplace s' fence with
        | nil => rw [hx] at h1; simp at h1
        | cons e t =>
          rw [hx] at h1
          obtain ⟨he, -⟩ := List.cons_prefix_cons.mp h1
          simp [← he]
      have hs' := head_tick_of_pyReplace_fence hhead
      cases s' with
      | nil => simp at hs'
      | cons d s'' =>
        have hd : d = tick := by simpa using hs'
        exact List.cons_prefix_cons.mpr ⟨hc,
          List.cons_prefix_cons.mpr ⟨hd.symm, List.nil_prefix⟩⟩

/-- Auxiliary form of the central fact with an explicit length bound:
scrubbing all bare fences leaves no bare fence behind. -/
theorem not_fence_infix_pyReplace_aux : ∀ (n : Nat) (s : List Char), s.length ≤ n →
    ¬ fence <:+: pyReplace s fence := by
  intro n
  induction n with
  | zero =>
    intro s hs
    have : s = [] := List.length_eq_zero.mp (Nat.le_antisymm hs (Nat.zero_le _))
    subst this
    intro h
    exact (by decide : fence ≠ []) (List.infix_nil.mp h)
  | succ n ihn =>
    intro s hs
    cases s with
    | nil =>
      intro h
      exact (by decide : fence ≠ []) (List.infix_nil.mp h)
    | cons c s' =>
      have hs' : s'.length ≤ n := by simpa using hs
      by_cases hp : fence.isPrefixOf (c :: s') ∧ fence ≠ []
      · rw [pyReplace_pos hp.1 hp.2]
        apply ihn
        have hlen : fence.length = 3 := by decide
        simp only [List.length_drop, List.length_cons, hlen]
        omega
      · rw [pyReplace_neg hp]
        intro hinf
        rcases List.infix_cons_iff.mp hinf with hpre | htail
        · have hft : fence = tick :: tick :: tick :: [] := by decide
          rw [hft] at hpre
          obtain ⟨hc, hpre2⟩ := List.cons_prefix_cons.mp hpre
          have h2 := two_ticks_prefix_of_pyReplace hpre2
          apply hp
          refine ⟨List.isPrefixOf_iff_prefix.mpr ?_, by decide⟩
          rw [hft]
          exact List.cons_prefix_cons.mpr ⟨hc, h2⟩
        · exact ihn s' hs' htail

/-- Scrubbing all bare fences leaves no bare fence behind. -/
theorem not_fence_infix_pyReplace (s : List Char) : ¬ fence <:+: pyReplace s fence :=
  not_fence_infix_pyReplace_aux s.length s le_rfl

/-- Dropping from the left is idempotent. -/
theorem dropWhile_idem (p : Char → Bool) (l : List Char) :
    (l.dropWhile p).dropWhile p = l.dropWhile p := by
  cases h : l.dropWhile p with
  | nil => rfl
  | cons a t =>
    have hpa : p a = false := by
      have hh := List.head?_dropWhile_not p l
      rw [h] at hh
      exact hh
    simp [List.dropWhile_cons, hpa]

/-- The left strip is idempotent. -/
theorem lstrip_idem (s : List Char) : lstrip (lstrip s) = lstrip s :=
  dropWhile_idem isPySpace s

/-- The right strip is idempotent. -/
theorem rstrip_idem (s : List Char) : rstrip (rstrip s) = rstrip s := by
  unfold rstrip
  rw [List.reverse_reverse, dropWhile_idem]

/-- The right strip returns a prefix of its input. -/
theorem rstrip_front (s : List Char) : rstrip s <+: s := by
  have h : s.reverse.dropWhile isPySpace <:+ s.reverse := List.dropWhile_suffix isPySpace
  have h2 := List.reverse_prefix.mpr h
  rwa [List.reverse_reverse] at h2

/-- The left strip returns a suffix of its input. -/
theorem lstrip_suffix (s : List Char) : lstrip s <:+ s :=
  List.dropWhile_suffix isPySpace

/-- A full strip returns an infix of its input. -/
theorem pyStrip_inside (s : List Char) : pyStrip s <:+: s :=
  List.IsInfix.trans (List.IsPrefix.isInfix (rstrip_front (lstrip s)))
    (List.IsSuffix.isInfix (lstrip_suffix s))

/-- Left-stripping after a right strip changes nothing if the input was
already left-stripped. -/
theorem lstrip_rstrip_of_lstrip (u : List Char) (hu : lstrip u = u) :
    lstrip (rstrip u) = rstrip u := by
  cases hr : rstrip u with
  | nil => rfl
  | cons a t =>
    have hpre := rstrip_front u
    rw [hr] at hpre
    obtain ⟨r, hrr⟩ := hpre
    have hu' : u = a :: (t ++ r) := by rw [← hrr]; rfl
    have ha : isPySpace a = false := by
      by_contra hcon
      have ha' : isPySpace a = true := by
        cases hx : isPySpace a with
        | false => exact absurd hx hcon
        | true => rfl
      rw [hu'] at hu
      unfold lstrip at hu
      rw [List.dropWhile_cons_of_pos ha'] at hu
      have hlen := congrArg List.length hu
      have hle : (List.dropWhile isPySpace (t ++ r)).length ≤ (t ++ r).length :=
        (List.dropWhile_sublist isPySpace).length_le
      simp only [List.length_cons] at hlen
      omega
    unfold lstrip
    rw [List.dropWhile_cons, if_neg (by simp [ha])]

/-- A full strip is idempotent. -/
theorem pyStrip_idem (s : List Char) : pyStrip (pyStrip s) = pyStrip s := by
  show rstrip (lstrip (rstrip (lstrip s))) = rstrip (lstrip s)
  rw [lstrip_rstrip_of_lstrip (lstrip s) (lstrip_idem s), rstrip_idem]

/-- The stripped reply never contains a bare code fence. -/
theorem stripReply_no_fence (s : List Char) : ¬ fence <:+: stripReply s :=
  fun h => not_fence_infix_pyReplace (pyReplace s fenceJson)
    (List.IsInfix.trans h (pyStrip_inside _))

/-- The stripped reply never contains a tagged code fence. -/
theorem stripReply_no_fenceJson (s : List Char) : ¬ fenceJson <:+: stripReply s :=
  fun h => stripReply_no_fence s
    (List.IsInfix.trans (List.IsPrefix.isInfix (by decide : fence <+: fenceJson)) h)

/-- Scrubbing bare fences consumes exactly a trailing fence appended to a
fence-free string. -/
theorem pyReplace_append_fence {inner : List Char} (h : ¬ fence <:+: inner) :
    pyReplace (inner ++ fence) fence = inner := by
  induction inner with
  | nil => decide
  | cons c inner' ih =>
    by_cases hp : fence.isPrefixOf ((c :: inner') ++ fence) ∧ fence ≠ []
    · have hft : fence = tick :: tick :: tick :: [] := by decide
      match inner' with
      | [] =>
        have hc : c = tick := by
          have hpr := List.isPrefixOf_iff_prefix.mp hp.1
          rw [hft] at hpr
          obtain ⟨hc, -⟩ := List.cons_prefix_cons.mp hpr
          exact hc.symm
        rw [hc]
        decide
      | [d] =>
        have hpr := List.isPrefixOf_iff_prefix.mp hp.1
        rw [hft] at hpr
        obtain ⟨hc, hpr2⟩ := List.cons_prefix_cons.mp hpr
        obtain ⟨hd, -⟩ := List.cons_prefix_cons.mp hpr2
        rw [← hc, ← hd]
        decide
      | d :: e :: rest =>
        exfalso
        apply h
        have hpr := List.isPrefixOf_iff_prefix.mp hp.1
        rw [hft] at hpr
        obtain ⟨hc, hpr2⟩ := List.cons_prefix_cons.mp hpr
        obtain ⟨hd, hpr3⟩ := List.cons_prefix_cons.mp hpr2
        obtain ⟨he, -⟩ := List.cons_prefix_cons.mp hpr3
        refine List.IsPrefix.isInfix ?_
        rw [hft]
        exact List.cons_prefix_cons.mpr ⟨hc,
          List.cons_prefix_cons.mpr ⟨hd,
            List.cons_prefix_cons.mpr ⟨he, List.nil_prefix⟩⟩⟩
    · rw [List.cons_append, pyReplace_neg (by rw [← List.cons_append]; exact hp)]
      rw [ih (fun hi => h (List.infix_cons_iff.mpr (Or.inr hi)))]

/-- Stripping is idempotent on every input. -/
theorem stripReply_idem (s : List Char) : stripReply (stripReply s) = stripReply s := by
  show pyStrip (pyReplace (pyReplace (stripReply s) fenceJson) fence) = stripReply s
  rw [pyReplace_of_no_occ (stripReply_no_fenceJson s),
      pyReplace_of_no_occ (stripReply_no_fence s)]
  exact pyStrip_idem (pyReplace (pyReplace s fenceJson) fence)

/-- On fence-free input, stripping only removes edge whitespace. -/
theorem stripReply_of_no_fence {s : List Char} (h : ¬ fence <:+: s) :
    stripReply s = pyStrip s := by
  have h7 : ¬ fenceJson <:+: s := fun hj =>
    h (List.IsInfix.trans (List.IsPrefix.isInfix (by decide : fence <+: fenceJson)) hj)
  show pyStrip (pyReplace (pyReplace s fenceJson) fence) = pyStrip s
  rw [pyReplace_of_no_occ h7, pyReplace_of_no_occ h]

/-- Stripping a reply wrapped in a tagged fence pair yields the stripped
inner content. -/
theorem stripReply_wrapped {inner : List Char}
    (h1 : ¬ fence <:+: inner)
    (h2 : ¬ fenceJson <:+: (inner ++ fence)) :
    stripReply (fenceJson ++ inner ++ fence) = pyStrip inner := by
  show pyStrip (pyReplace (pyReplace (fenceJson ++ inner ++ fence) fenceJson) fence) = _
  rw [List.append_assoc, pyReplace_cancel_left (inner ++ fence) (by decide),
      pyReplace_of_no_occ h2, pyReplace_append_fence h1]

/-- With a credential present, the Analysis Client issues exactly its
one request, whatever the outcome. -/
theorem analyzeRun_some (k : List Char) (c : Customer)
    (remote : Request → Except RemoteErr (List Char)) :
    analyzeRun (some k) c remote = (analyzeResult (some k) c remote, [mkRequest c]) := by
  unfold analyzeResult analyzeRun
  cases hr : remote (mkRequest c) with
  | error e => simp [hr]
  | ok t =>
    cases hj : jsonLoads (stripReply t) with
    | none => simp [hr, hj]
    | some v => simp [hr, hj]

/-- With a credential present, every exception of the client's body is
caught: the result is always a normal return. -/
theorem analyzeResult_some_ok (k : List Char) (c : Customer)
    (remote : Request → Except RemoteErr (List Char)) :
    ∀ e, analyzeResult (some k) c remote ≠ .error e := by
  intro e
  unfold analyzeResult analyzeRun
  cases hr : remote (mkRequest c) with
  | error e' => simp [hr]
  | ok t =>
    cases hj : jsonLoads (stripReply t) with
    | none => simp [hr, hj]
    | some v => simp [hr, hj]

/-- The batch loop on a list of well-formed outcomes: one request per
record in order, and one row per truthy result in order. -/
theorem batchGo_wf (k : List Char) (remote : Request → Except RemoteErr (List Char)) :
    ∀ cs : List Customer,
    (∀ c ∈ cs, wfResultB (analyzeResult (some k) c remote) c = true) →
    batchGo (some k) remote cs =
      (.ok (cs.filterMap (fun c =>
          match analyzeResult (some k) c remote with
          | .ok (some v) => buildRow c v
          | _ => none)),
       cs.map mkRequest) := by
  intro cs
  induction cs with
  | nil => intro _; rfl
  | cons c cs' ih =>
    intro hwf
    have hc := hwf c (List.mem_cons_self c cs')
    have hcs' := fun x hx => hwf x (List.mem_cons_of_mem c hx)
    have hproc : processCustomer (some k) remote c =
        (match analyzeResult (some k) c remote with
         | .ok (some v) => .ok (buildRow c v)
         | _ => .ok none,
         [mkRequest c]) := by
      unfold processCustomer
      rw [analyzeRun_some]
      cases hres : analyzeResult (some k) c remote with
      | error e => exact absurd hres (analyzeResult_some_ok k c remote e)
      | ok r? =>
        cases r? with
        | none => rfl
        | some v =>
          rw [hres] at hc
          unfold wfResultB at hc
          simp only [Bool.and_eq_true] at hc
          simp only [if_pos hc.1]
          cases hrow : buildRow c v with
          | none => rw [hrow] at hc; simp at hc
          | some row => simp
    show batchGo (some k) remote (c :: cs') = _
    unfold batchGo
    rw [hproc, ih hcs']
    cases hres : analyzeResult (some k) c remote with
    | error e => exact absurd hres (analyzeResult_some_ok k c remote e)
    | ok r? =>
      cases r? with
      | none => simp [List.filterMap_cons, hres]
      | some v =>
        rw [hres] at hc
        unfold wfResultB at hc
        simp only [Bool.and_eq_true] at hc
        cases hrow : buildRow c v with
        | none => rw [hrow] at hc; simp at hc
        | some row => simp [List.filterMap_cons, hres, hrow]

/-- An infix of the right part is an infix of an append. -/
theorem infix_app_right {x b : List Char} (a : List Char) (h : x <:+: b) :
    x <:+: a ++ b := by
  obtain ⟨s, t, hst⟩ := h
  exact ⟨a ++ s, t, by rw [← hst]; simp [List.append_assoc]⟩

/-- A list is an infix of itself followed by anything. -/
theorem infix_self_append (x t : List Char) : x <:+: x ++ t :=
  ⟨[], t, rfl⟩

/-- The rendered prompt, reassociated to the right. -/
theorem buildPrompt_eq (c : Customer) :
    buildPrompt c =
      promptP0 ++ (c.name
        ++ (promptP1 ++ (fmtNat c.days_since_last_activity
        ++ (promptP2 ++ (fmtNat c.open_tickets
        ++ (promptP3 ++ (fmtNat c.total_tickets
        ++ (promptP4 ++ (fmtCurrency c.total_revenue_cents
        ++ (promptP5 ++ (fmtNat c.opportunities_won
        ++ (promptP6 ++ (fmtNat c.opportunities_lost
        ++ (promptP7 ++ (c.email_engagement
        ++ promptP8))))))))))))))) := by
  simp [buildPrompt, List.append_assoc]

/-- Name lookup returns the first matching row of the dataset, in file
order. -/
theorem lookupByName_first (nm : List Char) :
    ∀ (pre : List Customer) (r : Customer) (post : List Customer),
    r.name = nm → (∀ x ∈ pre, x.name ≠ nm) →
    lookupByName (pre ++ r :: post) nm = some r := by
  intro pre
  induction pre with
  | nil =>
    intro r post hr _
    unfold lookupByName
    simp [List.filter_cons, hr]
  | cons x pre' ih =>
    intro r post hr hpre
    have hx : x.name ≠ nm := hpre x (List.mem_cons_self x pre')
    have hxb : (x.name == nm) = false := by
      cases hbeq : x.name == nm with
      | false => rfl
      | true => exact absurd (by simpa using hbeq) hx
    unfold lookupByName
    rw [List.cons_append, List.filter_cons, if_neg (by simp [hxb])]
    exact ih r post hr (fun y hy => hpre y (List.mem_cons_of_mem x hy))

/-- Name lookup succeeds for every name present in the dataset. -/
theorem lookupByName_of_mem {df : List Customer} {nm : List Char}
    (h : ∃ c ∈ df, c.name = nm) : (lookupByName df nm).isSome := by
  induction df with
  | nil => obtain ⟨c, hc, -⟩ := h; exact absurd hc (List.not_mem_nil c)
  | cons x df' ih =>
    by_cases hx : x.name = nm
    · unfold lookupByName
      simp [List.filter_cons, hx]
    · obtain ⟨c, hc, hcn⟩ := h
      rcases List.mem_cons.mp hc with hcx | hcd
      · exact absurd (hcx ▸ hcn) hx
      · have : (lookupByName df' nm).isSome := ih ⟨c, hcd, hcn⟩
        unfold lookupByName at this ⊢
        rw [List.filter_cons, if_neg (by simp [hx])]
        exact this

/-- C1: when every record's analysis fails, the batch produces an empty
result list, and the summary computation over it fails — the DataFrame
built from an empty list has no `Health Score` column, so the column
access raises a KeyError — instead of the defined no-data outcome the
specification requires. -/
theorem C1_empty_batch_summary_crash :
    runBatch 3 [sampleA, sampleB, sampleC] (some "k".toList) (fun _ => .error .apiError) =
      (.ok [], [mkRequest sampleA, mkRequest sampleB, mkRequest sampleC]) ∧
    computeSummary [] = .error .columnKeyError :=
  ⟨rfl, rfl⟩

/-- C2 (counterexample): the input `"  hola  "` contains no code-fence
marker, yet the stripping step changes it — `strip()` removes the edge
whitespace — refuting the claim that every marker-free input is returned
unchanged. -/
theorem C2_fence_stripping_counterexample :
    ¬ fence <:+: "  hola  ".toList ∧ ¬ fenceJson <:+: "  hola  ".toList ∧
    stripReply "  hola  ".toList ≠ "  hola  ".toList :=
  ⟨by decide, by decide, by decide⟩

/-- C2 (amended): the fence-stripping step is idempotent on every input;
on an input free of fence markers it returns the input with leading and
trailing whitespace stripped (so unchanged exactly when the input is
already stripped); and on an input wrapped in a tagged fence pair whose
inner content introduces no stray fence marker it returns the stripped
inner content (the inner content exactly, when that content has no edge
whitespace). -/
theorem C2_fence_stripping_amended :
    (∀ s : List Char, stripReply (stripReply s) = stripReply s) ∧
    (∀ s : List Char, ¬ fence <:+: s → stripReply s = pyStrip s) ∧
    (∀ inner : List Char, ¬ fence <:+: inner → ¬ fenceJson <:+: (inner ++ fence) →
      stripReply (fenceJson ++ inner ++ fence) = pyStrip inner) :=
  ⟨stripReply_idem, fun _ h => stripReply_of_no_fence h,
   fun _ h1 h2 => stripReply_wrapped h1 h2⟩

/-- C2 (witness): the amended statement evaluated at concrete inputs. -/
theorem C2_fence_stripping_amended_witness :
    stripReply (stripReply "x ```json y".toList) = stripReply "x ```json y".toList ∧
    (¬ fence <:+: " hola ".toList) ∧
    stripReply " hola ".toList = pyStrip " hola ".toList ∧
    (¬ fence <:+: " \x7b\"a\": 1\x7d ".toList) ∧
    (¬ fenceJson <:+: (" \x7b\"a\": 1\x7d ".toList ++ fence)) ∧
    stripReply (fenceJson ++ " \x7b\"a\": 1\x7d ".toList ++ fence) =
      pyStrip " \x7b\"a\": 1\x7d ".toList :=
  ⟨C2_fence_stripping_amended.1 _,
   by decide,
   C2_fence_stripping_amended.2.1 _ (by decide),
   by decide, by decide,
   C2_fence_stripping_amended.2.2 _ (by decide) (by decide)⟩

/-- C7: with the credential absent the client fails before issuing any
request — the client constructor raises outside the `try` block — an
outcome distinct from the caught remote-failure path, which reports the
generic error and returns `None`. -/
theorem C7_missing_credential (c : Customer)
    (remote : Request → Except RemoteErr (List Char)) :
    analyzeResult none c remote = .error .missingCredential ∧
    (analyzeRun none c remote).2 = [] ∧
    (∀ k : List Char, analyzeResult (some k) c (fun _ => .error .apiError) = .ok none) :=
  ⟨rfl, rfl, fun _ => rfl⟩

/-- C8: every invocation with a credential present issues exactly one
request, carrying the fixed model identifier, the output cap of 1000
tokens, and a single user-role message holding the rendered prompt. -/
theorem C8_single_request (k : List Char) (c : Customer)
    (remote : Request → Except RemoteErr (List Char)) :
    (analyzeRun (some k) c remote).2 = [mkRequest c] ∧
    (mkRequest c).model = modelId ∧
    (mkRequest c).max_tokens = 1000 ∧
    (mkRequest c).messages = [(Role.user, buildPrompt c)] := by
  refine ⟨?_, rfl, rfl, rfl⟩
  rw [analyzeRun_some]

/-- C3 (counterexample): a reply that decodes as JSON but lacks every
expected key does not collapse into the generic `None` result: the
client returns the decoded dict itself, and the caller's subsequent key
access raises, escaping to the UI layer. -/
theorem C3_error_collapse_counterexample :
    analyzeResult (some "k".toList) sampleA (fun _ => .ok badMissingReply) =
      .ok (some badMissingVal) ∧
    getKey badMissingVal "health_score".toList = none ∧
    renderSingle (analyzeResult (some "k".toList) sampleA (fun _ => .ok badMissingReply)) =
      .error .keyError :=
  ⟨rfl, rfl, rfl⟩

/-- C3 (amended): with a credential present, the client returns the
generic `None` exactly when the remote call fails or the fence-stripped
reply fails to decode as JSON; no exception leaves the client's own
handler.  A decoded reply missing expected keys is returned as a value,
and the missing-key failure surfaces later, uncaught, in the UI layer
(see the counterexample). -/
theorem C3_error_collapse_amended (k : List Char) (c : Customer)
    (remote : Request → Except RemoteErr (List Char)) :
    (analyzeResult (some k) c remote = .ok none ↔
      remote (mkRequest c) = .error .apiError ∨
      (∃ t, remote (mkRequest c) = .ok t ∧ jsonLoads (stripReply t) = none)) ∧
    (∀ e, analyzeResult (some k) c remote ≠ .error e) := by
  refine ⟨?_, analyzeResult_some_ok k c remote⟩
  unfold analyzeResult analyzeRun
  cases hr : remote (mkRequest c) with
  | error e =>
    cases e
    simp [hr]
  | ok t =>
    cases hj : jsonLoads (stripReply t) with
    | none => simp [hr, hj]
    | some v => simp [hr, hj]

/-- C3 (witness): the amended statement at a concrete input — a failing
remote call yields the generic `None`. -/
theorem C3_error_collapse_amended_witness :
    analyzeResult (some "k".toList) sampleA (fun _ => .error .apiError) = .ok none :=
  (C3_error_collapse_amended "k".toList sampleA (fun _ => .error .apiError)).1.mpr
    (Or.inl rfl)

/-- C4: the client performs no validation of a decoded reply: whenever
the fence-stripped reply text decodes as JSON, the decoded value is
returned to the caller unchanged, with no condition whatsoever on its
shape — bounds, risk literals and recommendation count included. -/
theorem C4_no_validation (k : List Char) (c : Customer)
    (remote : Request → Except RemoteErr (List Char)) (t : List Char) (v : Json)
    (hr : remote (mkRequest c) = .ok t)
    (hv : jsonLoads (stripReply t) = some v) :
    analyzeResult (some k) c remote = .ok (some v) := by
  unfold analyzeResult analyzeRun
  simp [hr, hv]

/-- C4 (witness): a decoded reply violating every contract bound — score
999, unknown risk literal, a single recommendation — is passed through
to the caller as-is. -/
theorem C4_no_validation_witness :
    jsonLoads (stripReply badShapeReply) = some badShapeVal ∧
    isContractShape badShapeVal = false ∧
    analyzeResult (some "k".toList) sampleA (fun _ => .ok badShapeReply) =
      .ok (some badShapeVal) :=
  ⟨rfl, rfl, C4_no_validation "k".toList sampleA _ badShapeReply badShapeVal rfl rfl⟩

set_option maxRecDepth 100000 in
/-- C5 (counterexample): for the concrete record `sampleA` the rendered
days-since-activity value — the digit string `3` — occurs more than once
in the prompt, because the static template text also contains that
digit; this refutes the exactly-once substring claim. -/
theorem C5_prompt_counterexample :
    countOccs (fmtNat sampleA.days_since_last_activity) (buildPrompt sampleA) ≠ 1 := by
  decide

/-- C5 (amended): the rendered prompt interpolates each of the eight
field values at exactly one template position, so each formatted value
occurs in the prompt as a substring (at least once): name and engagement
verbatim, the five counters in plain decimal, the revenue
currency-grouped with two decimal places.  The exactly-once substring
count of the original claim fails because static template text can
repeat the same digit strings (see the counterexample). -/
theorem C5_prompt_embeds_fields (c : Customer) :
    c.name <:+: buildPrompt c ∧
    fmtNat c.days_since_last_activity <:+: buildPrompt c ∧
    fmtNat c.open_tickets <:+: buildPrompt c ∧
    fmtNat c.total_tickets <:+: buildPrompt c ∧
    fmtCurrency c.total_revenue_cents <:+: buildPrompt c ∧
    fmtNat c.opportunities_won <:+: buildPrompt c ∧
    fmtNat c.opportunities_lost <:+: buildPrompt c ∧
    c.email_engagement <:+: buildPrompt c := by
  rw [buildPrompt_eq]
  refine ⟨?_, ?_, ?_, ?_, ?_, ?_, ?_, ?_⟩ <;>
    repeat first | exact infix_self_append _ _ | apply infix_app_right

/-- C6: for every dataset and every `n` bounded by the dataset size, the
batch loop issues one request per record of the first `n`, in order;
exactly the records whose analysis returned the error value (or a falsy
result) contribute nothing, and the table holds one row per remaining
record, in the original order, with the derived columns of `buildRow` —
under the premise that every returned analysis is truthy and carries the
keys the row reads. -/
theorem C6_batch_loop (n : Nat) (df : List Customer) (k : List Char)
    (remote : Request → Except RemoteErr (List Char))
    (hn : n ≤ df.length)
    (hwf : ∀ c ∈ df.take n, wfResultB (analyzeResult (some k) c remote) c = true) :
    runBatch n df (some k) remote =
      (.ok ((df.take n).filterMap (fun c =>
          match analyzeResult (some k) c remote with
          | .ok (some v) => buildRow c v
          | _ => none)),
       (df.take n).map mkRequest) := by
  unfold runBatch
  rw [if_pos hn]
  exact batchGo_wf k remote (df.take n) hwf

set_option maxRecDepth 100000 in
/-- C6 (witness): end-to-end scenario 3 — a batch of three records whose
second remote call fails: three requests are issued, the table has
exactly the two rows of the successful records in order, and the mean
health score is computed over those two only: (82 + 64) / 2 = 73. -/
theorem C6_batch_loop_witness :
    3 ≤ ([sampleA, sampleB, sampleC] : List Customer).length ∧
    runBatch 3 [sampleA, sampleB, sampleC] (some "k".toList) remoteScenario =
      (.ok [⟨sampleA.name, .num 82, .str "low".toList, sampleA.total_revenue_cents,
              sampleA.days_since_last_activity, sampleA.open_tickets⟩,
            ⟨sampleC.name, .num 64, .str "high".toList, sampleC.total_revenue_cents,
              sampleC.days_since_last_activity, sampleC.open_tickets⟩],
       [mkRequest sampleA, mkRequest sampleB, mkRequest sampleC]) ∧
    computeSummary
        [⟨sampleA.name, .num 82, .str "low".toList, sampleA.total_revenue_cents,
            sampleA.days_since_last_activity, sampleA.open_tickets⟩,
         ⟨sampleC.name, .num 64, .str "high".toList, sampleC.total_revenue_cents,
            sampleC.days_since_last_activity, sampleC.open_tickets⟩] =
      .ok ⟨mkRat 73 1, 1, mkRat 50 1, 1484625, 250075⟩ := by
  refine ⟨by decide, ?_, by decide⟩
  rw [C6_batch_loop 3 [sampleA, sampleB, sampleC] "k".toList remoteScenario
    (by decide) (by decide)]
  rfl

/-- C9: the batch-size slider enforces `min_value = 3` and
`max_value = len(df)`: a requested size lies within the control's bounds
exactly when it is between 3 and the dataset size, and on a dataset with
fewer than three rows the lower bound exceeds the upper bound. -/
theorem C9_slider_bounds (df : List Customer) (n : Nat) :
    (((batchSlider df).min_value ≤ n ∧ n ≤ (batchSlider df).max_value) ↔
      (3 ≤ n ∧ n ≤ df.length)) ∧
    (df.length < 3 → (batchSlider df).max_value < (batchSlider df).min_value) := by
  constructor
  · exact Iff.rfl
  · intro h
    simpa [batchSlider] using h

/-- C9 (witness): on a one-record dataset the slider's bounds are
inverted; on a three-record dataset the size 3 lies within bounds. -/
theorem C9_slider_bounds_witness :
    ([sampleA] : List Customer).length < 3 ∧
    (batchSlider [sampleA]).max_value < (batchSlider [sampleA]).min_value ∧
    ((batchSlider [sampleA, sampleB, sampleC]).min_value ≤ 3 ∧
      3 ≤ (batchSlider [sampleA, sampleB, sampleC]).max_value) :=
  ⟨by decide, (C9_slider_bounds [sampleA] 0).2 (by decide),
   (C9_slider_bounds [sampleA, sampleB, sampleC] 3).1.mpr (by decide)⟩

/-- C10: single-record lookup by name is total for any name present in
the dataset and deterministic: it returns the first matching row in file
order, also when several records share the selected name. -/
theorem C10_lookup_first_match (df : List Customer) (nm : List Char) :
    ((∃ c ∈ df, c.name = nm) → (lookupByName df nm).isSome) ∧
    (∀ pre r post, df = pre ++ r :: post → r.name = nm →
      (∀ x ∈ pre, x.name ≠ nm) → lookupByName df nm = some r) := by
  refine ⟨lookupByName_of_mem, ?_⟩
  intro pre r post hdf hr hpre
  rw [hdf]
  exact lookupByName_first nm pre r post hr hpre

/-- C10 (witness): with two records sharing the name `Beta SA`, lookup
returns the first of them in file order, and lookup of the present name
succeeds. -/
theorem C10_lookup_first_match_witness :
    lookupByName [sampleA, sampleB, sampleB2] "Beta SA".toList = some sampleB ∧
    (lookupByName [sampleA, sampleB, sampleB2] "Beta SA".toList).isSome :=
  ⟨(C10_lookup_first_match [sampleA, sampleB, sampleB2] "Beta SA".toList).2
      [sampleA] sampleB [sampleB2] rfl rfl (by decide),
   (C10_lookup_first_match [sampleA, sampleB, sampleB2] "Beta SA".toList).1
      ⟨sampleB, by decide, rfl⟩⟩
